import Mathlib

/-!
Shallow embedding of the tool-plugin registry and the model-driven
orchestration loop of `assistant_core.py` (repository A2A), together with
theorems settling the frozen claims about it.

Python dicts are modelled as association lists in insertion order with
unique keys maintained by `dictUpdate`; Python values that flow through the
orchestrator are modelled by `PyVal`; the callable type of the registry is a
type parameter `F` (instantiated with real functions for the orchestrator and
with opaque tokens where decidable equality is needed).
-/

namespace A2A

/-- Python values that the orchestrator inspects or forwards: strings,
byte strings (audio payloads) and None. -/
inductive PyVal where
  | str : String → PyVal
  | bytes : List Nat → PyVal
  | pynone : PyVal
  deriving DecidableEq, Repr

/-- Python truthiness (`if not x`) for the values above: empty string,
empty bytes and None are falsy. -/
def pyTruthy : PyVal → Bool
  | .str s => !(s == "")
  | .bytes b => !b.isEmpty
  | .pynone => false

/-- `str(x)` as applied to a tool result before it is folded into the
conversation history (`content = str(function_response)`). The exact
rendering of bytes/None is not load-bearing for any claim. -/
def pyStr : PyVal → String
  | .str s => s
  | .bytes b => "bytes:" ++ toString b.length
  | .pynone => "None"

/-- A Python dict in insertion order: association list with unique keys. -/
abbrev Dict (F : Type) : Type := List (String × F)

/-- `d.get(k)` / `d[k]` lookup: the first (and, for a dict, only) binding
of the key. -/
def dictGet {F : Type} (d : Dict F) (k : String) : Option F :=
  match d with
  | [] => none
  | p :: d => if p.1 == k then some p.2 else dictGet d k

/-- `d[k] = v`: overwrite the binding in place if the key is present,
append it otherwise (Python insertion-order semantics). -/
def dictInsert {F : Type} (d : Dict F) (k : String) (v : F) : Dict F :=
  if List.any d (fun p => p.1 == k) then
    List.map (fun p => if p.1 == k then (k, v) else p) d
  else d ++ [(k, v)]

/-- `d1.update(d2)`: fold every binding of `d2` into `d1`, later bindings
overwriting earlier ones. -/
def dictUpdate {F : Type} (d1 d2 : Dict F) : Dict F :=
  List.foldl (fun d p => dictInsert d p.1 p.2) d1 d2

/-- A tool schema entry of a TOOL_SCHEMAS list. Source schemas are OpenAI
function-schema objects; only the function name is inspected by the
registry layer, so the structural descriptor is kept opaque. -/
structure Schema where
  name : String
  deriving DecidableEq, Repr

/-- A discovered capability module after `exec_module` succeeded:
`TOOL_SCHEMAS` is `some` when the attribute exists and is a list, and
`TOOL_MAP` is `some` when the attribute exists and is a dict
(`hasattr` + `isinstance` as checked by the validators). -/
structure ToolModule (F : Type) where
  TOOL_SCHEMAS : Option (List Schema)
  TOOL_MAP : Option (Dict F)

/-- The fallback validator defined in `assistant_core.py` when
`tools/tool_interface.py` is unavailable: presence of both artifacts only. -/
def validate_tool_module_default {F : Type} (m : ToolModule F) : Bool :=
  m.TOOL_SCHEMAS.isSome && m.TOOL_MAP.isSome

/-- Modelled from the spec: `tools/tool_interface.py` (the
`validate_tool_module` imported by `assistant_core.py`) is not under src/.
Per the spec, a module is valid iff it exposes both a schema list and a
function map and the set of schema names exactly equals the set of
function-map keys, enforced bidirectionally. -/
def validate_tool_module {F : Type} (m : ToolModule F) : Bool :=
  match m.TOOL_SCHEMAS, m.TOOL_MAP with
  | some ss, some tm =>
      List.all ss (fun s => List.any tm (fun p => p.1 == s.name)) &&
      List.all tm (fun p => List.any ss (fun s => s.name == p.1))
  | _, _ => false

/-- `load_tools_from_directory`: validate each discovered module; for a
validated module extend the flat schema list and fold its TOOL_MAP into the
flat function dict; a rejected module contributes nothing. The input list
stands for the modules whose `core.py` was found and executed, in
directory-listing order. -/
def load_tools_from_directory {F : Type} (modules : List (ToolModule F)) :
    List Schema × Dict F :=
  List.foldl
    (fun acc m =>
      if validate_tool_module m then
        (acc.1 ++ m.TOOL_SCHEMAS.getD [], dictUpdate acc.2 (m.TOOL_MAP.getD []))
      else acc)
    ([], ([] : Dict F)) modules

/-- `reload_tools`: rebuild the registry globals from the tools directory
(the rebinding of `loaded_tools_schemas` / `loaded_tool_functions`). -/
def reload_tools {F : Type} (modules : List (ToolModule F)) :
    List Schema × Dict F :=
  load_tools_from_directory modules

/-! ## Orchestrator (`process_command_with_llm_and_tools`) -/

/-- The keyword arguments of one tool call after `json.loads`. -/
abbrev Args : Type := Dict PyVal

/-- `args.get(k, default)`. -/
def argsGet (a : Args) (k : String) (d : PyVal) : PyVal :=
  (dictGet a k).getD d

deriving instance DecidableEq for Except

/-- One entry of `response_message.tool_calls`. `arguments` is the result of
`json.loads(tool_call.function.arguments)`: `Except.error` models the parse
raising, which escapes to the outer handler of the loop. -/
structure ToolCall where
  id : String
  function_name : String
  arguments : Except String Args
  deriving DecidableEq, Repr

/-- A conversation message: the `role`/`content` dicts of the history plus
the optional `name` / `tool_call_id` fields of tool messages and the
`tool_calls` of an assistant turn. -/
structure Message where
  role : String
  content : String
  name : Option String := none
  tool_call_id : Option String := none
  tool_calls : List ToolCall := []
  deriving DecidableEq, Repr

/-- The registry callable type: keyword arguments in, either a returned
`PyVal` or a raised exception (its `str(e)` text) out. -/
abbrev Func : Type := Args → Except String PyVal

/-- `loaded_tool_functions.get(name)` followed by `function_to_call(**args)`:
when the name is unknown the lookup yields `None` and calling it raises a
`TypeError`; any exception of the callable itself is surfaced likewise. -/
def call_function (fns : Dict Func) (name2 : String) (args : Args) :
    Except String PyVal :=
  match dictGet fns name2 with
  | some f => f args
  | none => .error "TypeError: NoneType object is not callable"

/-- The orchestrator treats the system prompt as an opaque string; its
(Korean) content is abridged here because no code path inspects it. -/
def system_prompt : String := "IT 실무자 AI 비서 멀티에이전트 코디네이터 프롬프트"

/-- The system message prepended to every seeded history. -/
def systemMessage : Message := { role := "system", content := system_prompt }

/-- The new user message appended after the replayed history. -/
def userMessage (command_text : String) : Message :=
  { role := "user", content := command_text }

/-- The `tool` role message appended after a non-terminal tool call. -/
def toolMessage (id2 name2 content : String) : Message :=
  { role := "tool", content := content, name := some name2,
    tool_call_id := some id2 }

/-- Seeding of the message list: system prompt, then the prior history with
system messages filtered out, then the new user message. -/
def seedMessages (command_text : String) (history : List Message) :
    List Message :=
  systemMessage :: (List.filter (fun m => m.role != "system") history
    ++ [userMessage command_text])

/-- The caller-facing response dict. -/
abbrev PyDict : Type := Dict PyVal

/-- The success dict returned when the terminal tool call succeeds. -/
def audioResponseDict (voice_text detailed_text audio_content : PyVal) :
    PyDict :=
  [("status", .str "success"), ("response_type", .str "audio_response"),
   ("voice_text", voice_text), ("detailed_text", detailed_text),
   ("audio_content", audio_content)]

/-- The text-fallback dict (terminal tool failed, or final model text). -/
def textFallbackDict (text_content : PyVal) : PyDict :=
  [("status", .str "success"), ("response_type", .str "text_fallback"),
   ("text_content", text_content)]

/-- The dict returned by the outer exception handler of the loop. -/
def sessionErrorDict (e : String) : PyDict :=
  [("status", .str "error"),
   ("response", .str ("처리 중 오류가 발생했습니다: " ++ e))]

/-- The dict returned on empty input, before anything else happens. -/
def emptyCommandDict : PyDict :=
  [("status", .str "error"), ("response", .str "명령을 받지 못했습니다.")]

/-- What one model-provider call can do: return a `response_message`, or
raise (network, quota, malformed response). -/
inductive ProviderResult where
  | ok : Message → ProviderResult
  | raise : String → ProviderResult

/-- One provider call as observed from outside: the message list and the
schema list (`tools=loaded_tools_schemas`) passed to it. -/
structure ProviderCall where
  messages : List Message
  tools : List Schema
  deriving DecidableEq, Repr

/-- One execution of `function_to_call(**function_args)`, recorded at the
moment the call is made. -/
structure Invocation where
  function_name : String
  arguments : Args
  deriving DecidableEq, Repr

/-- The environment of one run: `script i` is the provider behaviour at loop
iteration `i`, and `regAt i` is the value of the process-wide registry
globals (`loaded_tools_schemas`, `loaded_tool_functions`) read during
iteration `i` — another thread calling `reload_tools` between iterations is
modelled by `regAt` changing with `i`. -/
structure Env where
  script : Nat → ProviderResult
  regAt : Nat → List Schema × Dict Func

/-- Outcome of processing one batch of tool calls. -/
inductive BatchOut where
  | terminal : PyDict → BatchOut
  | continue2 : List Message → BatchOut
  | raise : String → BatchOut

/-- The `for tool_call in tool_calls` body: process a batch in issue order.
A call naming `speak_text` is the terminal action — extract `text` /
`detailed_text` (falling back to the voice text when the detailed text is
falsy), invoke, and return either the audio-response dict or, when the
callable raises, the text-fallback dict. Any other call is invoked and its
result or error text appended as a `tool` message. A raising
`json.loads` escapes the batch. Also returns the invocations performed. -/
def processCalls (fns : Dict Func) :
    List ToolCall → List Message → BatchOut × List Invocation
  | [], messages => (.continue2 messages, [])
  | tc :: rest, messages =>
    match tc.arguments with
    | .error e => (.raise e, [])
    | .ok args =>
      if tc.function_name == "speak_text" then
        let voice_text := argsGet args "text" (.str "")
        let detailed_text0 := argsGet args "detailed_text" (.str "")
        let detailed_text :=
          if pyTruthy detailed_text0 then detailed_text0 else voice_text
        match call_function fns tc.function_name args with
        | .ok audio_content =>
            (.terminal (audioResponseDict voice_text detailed_text
              audio_content), [⟨tc.function_name, args⟩])
        | .error _ =>
            (.terminal (textFallbackDict
              (if pyTruthy detailed_text then detailed_text else voice_text)),
              [⟨tc.function_name, args⟩])
      else
        match call_function fns tc.function_name args with
        | .ok r =>
            let out := processCalls fns rest
              (messages ++ [toolMessage tc.id tc.function_name (pyStr r)])
            (out.1, ⟨tc.function_name, args⟩ :: out.2)
        | .error e =>
            let out := processCalls fns rest
              (messages ++ [toolMessage tc.id tc.function_name
                ("오류 발생: " ++ e)])
            (out.1, ⟨tc.function_name, args⟩ :: out.2)

/-- The `while True` loop, fuel-indexed because the source loop has no
iteration bound: at iteration `i` read the registry globals, call the
provider with the current messages and schemas; with no tool calls return
the text fallback; otherwise append the assistant turn and process the
batch; a provider exception (or an escaping `json.loads` exception) is
caught by the outer handler and returns the session-error dict. Returns the
result (`none` when fuel ran out mid-loop), the provider-call trace and the
invocation trace. -/
def runLoop (env : Env) :
    Nat → Nat → List Message →
    Option PyDict × List ProviderCall × List Invocation
  | 0, _, _ => (none, [], [])
  | fuel + 1, i, messages =>
    let call : ProviderCall := ⟨messages, (env.regAt i).1⟩
    match env.script i with
    | .raise e => (some (sessionErrorDict e), [call], [])
    | .ok rm =>
      if rm.tool_calls.isEmpty then
        (some (textFallbackDict (.str rm.content)), [call], [])
      else
        match processCalls (env.regAt i).2 rm.tool_calls
            (messages ++ [rm]) with
        | (.terminal r, invs) => (some r, [call], invs)
        | (.raise e, invs) => (some (sessionErrorDict e), [call], invs)
        | (.continue2 msgs2, invs) =>
            let out := runLoop env fuel (i + 1) msgs2
            (out.1, call :: out.2.1, invs ++ out.2.2)

/-- `process_command_with_llm_and_tools`: reject empty input immediately,
otherwise seed the history and enter the loop at iteration 0. -/
def process_command_with_llm_and_tools (env : Env) (fuel : Nat)
    (command_text : String) (conversation_history : List Message) :
    Option PyDict × List ProviderCall × List Invocation :=
  if command_text == "" then (some emptyCommandDict, [], [])
  else runLoop env fuel 0 (seedMessages command_text conversation_history)

/-! ## Concrete objects used by orchestrator witnesses and counterexamples -/

/-- A non-terminal tool callable that succeeds. -/
def okFunc : Func := fun _ => .ok (.str "ok-result")

/-- A terminal (speak_text) callable that returns audio bytes. -/
def speakOkFunc : Func := fun _ => .ok (.bytes [1, 2, 3])

/-- A terminal callable whose synthesis raises. -/
def speakFailFunc : Func := fun _ => .error "TTS backend unavailable"

/-- A non-terminal tool callable that raises. -/
def failFunc : Func := fun _ => .error "tool blew up"

/-- A module exposing the one non-terminal tool `echo_tool`. -/
def echoModule : ToolModule Func :=
  ⟨some [⟨"echo_tool"⟩], some [("echo_tool", okFunc)]⟩

/-- A module exposing the terminal tool `speak_text`. -/
def speakModule : ToolModule Func :=
  ⟨some [⟨"speak_text"⟩], some [("speak_text", speakOkFunc)]⟩

/-- A tool call to the non-terminal tool with empty keyword arguments. -/
def echoCall : ToolCall := ⟨"call1", "echo_tool", .ok []⟩

/-- An assistant turn carrying only the non-terminal call. -/
def echoTurn : Message :=
  { role := "assistant", content := "", tool_calls := [echoCall] }

/-- An environment whose provider always raises, with an empty registry. -/
def sessionErrorEnv : Env := ⟨fun _ => .raise "boom", fun _ => ([], [])⟩

/-- A prior-history message whose role is neither user nor assistant. -/
def toolHistoryMessage : Message :=
  { role := "tool", content := "earlier tool result",
    name := some "t", tool_call_id := some "c1" }

/-- The two otherwise-valid duplicate modules (see the registry claims). -/
def dupModule1 : ToolModule Nat := ⟨some [⟨"dup"⟩], some [("dup", 1)]⟩

/-- Second module declaring the duplicated name, token `2`. -/
def dupModule2 : ToolModule Nat := ⟨some [⟨"dup"⟩], some [("dup", 2)]⟩

/-- An environment in which `reload_tools` completes between loop
iterations 0 and 1, adding the speak module to the registry globals. -/
def reloadEnv : Env :=
  ⟨fun i => if i = 0 then .ok echoTurn else .raise "stop",
   fun i =>
     if i = 0 then load_tools_from_directory [echoModule]
     else reload_tools [echoModule, speakModule]⟩

/-- The terminal-call keyword arguments of the spec example. -/
def speakArgs : Args :=
  [("text", .str "안녕"), ("detailed_text", .str "안녕하세요, 도와드릴까요?")]

/-- A tool call naming the terminal tool with the example arguments. -/
def speakCall : ToolCall := ⟨"call2", "speak_text", .ok speakArgs⟩

/-- An assistant turn carrying only the terminal call. -/
def speakTurn : Message :=
  { role := "assistant", content := "", tool_calls := [speakCall] }

/-- An environment whose provider always issues the terminal call and whose
registry binds `speak_text` to the succeeding synthesiser. -/
def speakEnv : Env :=
  ⟨fun _ => .ok speakTurn,
   fun _ => ([⟨"speak_text"⟩], [("speak_text", speakOkFunc)])⟩

/-- Same provider, registry binding `speak_text` to a raising synthesiser. -/
def speakFailEnv : Env :=
  ⟨fun _ => .ok speakTurn,
   fun _ => ([⟨"speak_text"⟩], [("speak_text", speakFailFunc)])⟩

/-- A tool call to a non-terminal tool whose callable raises. -/
def failCall : ToolCall := ⟨"call3", "boom_tool", .ok []⟩

/-- An assistant turn carrying only the failing non-terminal call. -/
def failTurn : Message :=
  { role := "assistant", content := "", tool_calls := [failCall] }

/-- An environment whose first turn is the failing non-terminal call and
whose second provider call raises, ending the run. -/
def failEnv : Env :=
  ⟨fun i => if i = 0 then .ok failTurn else .raise "stop",
   fun _ => ([⟨"boom_tool"⟩], [("boom_tool", failFunc)])⟩

/-! ## Helper lemmas: dict semantics -/

theorem dictGet_append {F : Type} (d1 d2 : Dict F) (q : String) :
    dictGet (d1 ++ d2) q =
      match dictGet d1 q with
      | some v => some v
      | none => dictGet d2 q := by
  induction d1 with
  | nil => rfl
  | cons p d1 ih =>
    by_cases hp : (p.1 == q) = true
    · simp [dictGet, hp]
    · simp [dictGet, hp, ih]

theorem dictGet_eq_none_of_not_any {F : Type} (d : Dict F) (k : String)
    (hk : ¬ List.any d (fun p => p.1 == k) = true) :
    dictGet d k = none := by
  induction d with
  | nil => rfl
  | cons p d ih =>
    have hp : (p.1 == k) = false := by
      cases hc : (p.1 == k) with
      | false => rfl
      | true => exact absurd (by simp [List.any_cons, hc]) hk
    have hk2 : ¬ List.any d (fun p => p.1 == k) = true := by
      intro hc; exact hk (by simp [List.any_cons, hc])
    simp [dictGet, hp, ih hk2]

theorem dictGet_overwrite_of_mem {F : Type} (d : Dict F) (k : String) (v : F)
    (hk : List.any d (fun p => p.1 == k) = true) :
    dictGet (List.map (fun p => if p.1 == k then (k, v) else p) d) k =
      some v := by
  induction d with
  | nil => simp at hk
  | cons p d ih =>
    by_cases hp : (p.1 == k) = true
    · simp [dictGet, hp]
    · have hk2 : List.any d (fun p => p.1 == k) = true := by
        simpa [List.any_cons, hp] using hk
      simpa [dictGet, hp] using ih hk2

theorem dictGet_overwrite_of_ne {F : Type} (d : Dict F) (k : String) (v : F)
    (q : String) (hq : ¬ q = k) :
    dictGet (List.map (fun p => if p.1 == k then (k, v) else p) d) q =
      dictGet d q := by
  induction d with
  | nil => rfl
  | cons p d ih =>
    by_cases hp : (p.1 == k) = true
    · have hp2 : p.1 = k := by simpa using hp
      have hkq : (k == q) = false := by
        simp only [beq_eq_false_iff_ne]; exact fun h => hq h.symm
      have hpq : (p.1 == q) = false := by
        simp only [beq_eq_false_iff_ne, hp2]; exact fun h => hq h.symm
      simpa [dictGet, hp, hkq, hpq] using ih
    · by_cases hpq : (p.1 == q) = true
      · simp [dictGet, hp, hpq]
      · simpa [dictGet, hp, hpq] using ih

theorem dictGet_dictInsert_self {F : Type} (d : Dict F) (k : String) (v : F) :
    dictGet (dictInsert d k v) k = some v := by
  unfold dictInsert
  by_cases hk : List.any d (fun p => p.1 == k) = true
  · rw [if_pos hk]
    exact dictGet_overwrite_of_mem d k v hk
  · rw [if_neg hk, dictGet_append, dictGet_eq_none_of_not_any d k hk]
    simp [dictGet]

theorem dictGet_dictInsert_ne {F : Type} (d : Dict F) (k : String) (v : F)
    (q : String) (hq : ¬ q = k) :
    dictGet (dictInsert d k v) q = dictGet d q := by
  unfold dictInsert
  by_cases hk : List.any d (fun p => p.1 == k) = true
  · rw [if_pos hk]
    exact dictGet_overwrite_of_ne d k v q hq
  · rw [if_neg hk, dictGet_append]
    have hkq : (k == q) = false := by
      simp only [beq_eq_false_iff_ne]; exact fun h => hq h.symm
    simp only [dictGet, hkq, if_false]
    cases dictGet d q <;> rfl

theorem dictGet_dictUpdate_of_not_mem {F : Type} (d d2 : Dict F) (n : String)
    (h : ¬ n ∈ List.map Prod.fst d2) :
    dictGet (dictUpdate d d2) n = dictGet d n := by
  induction d2 generalizing d with
  | nil => rfl
  | cons p d2 ih =>
    have hn : ¬ n = p.1 := by
      intro he; exact h (by simp [he])
    have h2 : ¬ n ∈ List.map Prod.fst d2 := by
      intro hm; exact h (by simp [hm])
    show dictGet (dictUpdate (dictInsert d p.1 p.2) d2) n = dictGet d n
    rw [ih (dictInsert d p.1 p.2) h2, dictGet_dictInsert_ne d p.1 p.2 n hn]

theorem dictGet_dictUpdate_of_mem {F : Type} (d d2 : Dict F) (n : String)
    (v : F) (hnd : (List.map Prod.fst d2).Nodup) (hget : dictGet d2 n = some v) :
    dictGet (dictUpdate d d2) n = some v := by
  induction d2 generalizing d with
  | nil => simp [dictGet] at hget
  | cons p d2 ih =>
    by_cases hp : (p.1 == n) = true
    · have hp2 : p.1 = n := by simpa using hp
      have hv : p.2 = v := by
        simpa [dictGet, List.find?_cons, hp] using hget
      have hnotin : ¬ n ∈ List.map Prod.fst d2 := by
        simp only [List.map_cons, List.nodup_cons] at hnd
        rw [← hp2]; exact hnd.1
      show dictGet (dictUpdate (dictInsert d p.1 p.2) d2) n = some v
      rw [dictGet_dictUpdate_of_not_mem (dictInsert d p.1 p.2) d2 n hnotin,
        hp2, dictGet_dictInsert_self, hv]
    · have hget2 : dictGet d2 n = some v := by
        simpa [dictGet, List.find?_cons, hp] using hget
      have hnd2 : (List.map Prod.fst d2).Nodup := by
        simp only [List.map_cons, List.nodup_cons] at hnd
        exact hnd.2
      exact ih (dictInsert d p.1 p.2) hnd2 hget2

/-! ## Helper lemmas: validator and registry build -/

theorem validate_some_iff {F : Type} (ss : List Schema) (tm : Dict F) :
    validate_tool_module (⟨some ss, some tm⟩ : ToolModule F) = true ↔
      ∀ n, n ∈ List.map Schema.name ss ↔ n ∈ List.map Prod.fst tm := by
  simp only [validate_tool_module, Bool.and_eq_true, List.all_eq_true,
    List.any_eq_true, beq_iff_eq, List.mem_map]
  constructor
  · rintro ⟨h1, h2⟩ n
    constructor
    · rintro ⟨s, hs, rfl⟩
      obtain ⟨p, hp, hpe⟩ := h1 s hs
      exact ⟨p, hp, hpe⟩
    · rintro ⟨p, hp, rfl⟩
      obtain ⟨s, hs, hse⟩ := h2 p hp
      exact ⟨s, hs, hse⟩
  · intro h
    constructor
    · intro s hs
      obtain ⟨p, hp, hpe⟩ := (h s.name).1 ⟨s, hs, rfl⟩
      exact ⟨p, hp, hpe⟩
    · intro p hp
      obtain ⟨s, hs, hse⟩ := (h p.1).2 ⟨p, hp, rfl⟩
      exact ⟨s, hs, hse⟩

theorem load_skips_invalid {F : Type} (m : ToolModule F)
    (hm : validate_tool_module m = false) (l1 l2 : List (ToolModule F)) :
    load_tools_from_directory (l1 ++ m :: l2) =
      load_tools_from_directory (l1 ++ l2) := by
  unfold load_tools_from_directory
  rw [List.foldl_append, List.foldl_append, List.foldl_cons]
  simp [hm]

/-! ## Claims about the registry build -/

/-- Claim C1: module validation accepts a module iff it exposes both a
schema list and a function map and the set of schema names exactly equals
the set of function-map keys; a module exposing both whose name sets differ
(a schema without a callable, or a callable without a schema entry) is
rejected and contributes zero entries to the registry built by
`load_tools_from_directory`. -/
theorem claim_C1 {F : Type} (m : ToolModule F) (ss : List Schema)
    (tm : Dict F) (hs : m.TOOL_SCHEMAS = some ss) (ht : m.TOOL_MAP = some tm)
    (hdiff : ¬ ∀ n, n ∈ List.map Schema.name ss ↔ n ∈ List.map Prod.fst tm)
    (l1 l2 : List (ToolModule F)) :
    (validate_tool_module m = true ↔
      ∀ n, n ∈ List.map Schema.name ss ↔ n ∈ List.map Prod.fst tm) ∧
    validate_tool_module (⟨none, some tm⟩ : ToolModule F) = false ∧
    validate_tool_module (⟨some ss, none⟩ : ToolModule F) = false ∧
    validate_tool_module m = false ∧
    load_tools_from_directory (l1 ++ m :: l2) =
      load_tools_from_directory (l1 ++ l2) := by
  have hval : validate_tool_module m =
      validate_tool_module (⟨some ss, some tm⟩ : ToolModule F) := by
    unfold validate_tool_module
    rw [hs, ht]
  have hiff : validate_tool_module m = true ↔
      ∀ n, n ∈ List.map Schema.name ss ↔ n ∈ List.map Prod.fst tm := by
    rw [hval]; exact validate_some_iff ss tm
  have hfalse : validate_tool_module m = false := by
    cases h2 : validate_tool_module m with
    | false => rfl
    | true => exact absurd (hiff.1 h2) hdiff
  exact ⟨hiff, rfl, rfl, hfalse, load_skips_invalid m hfalse l1 l2⟩

/-- Witness for C1: a module whose one schema name `a` differs from its one
function-map key `b` is rejected and contributes nothing. -/
theorem claim_C1_witness :
    ((validate_tool_module (⟨some [⟨"a"⟩], some [("b", 1)]⟩ : ToolModule Nat)
        = true ↔
      ∀ n, n ∈ List.map Schema.name [⟨"a"⟩] ↔
        n ∈ List.map Prod.fst [("b", (1 : Nat))]) ∧
    validate_tool_module (⟨none, some [("b", 1)]⟩ : ToolModule Nat) = false ∧
    validate_tool_module (⟨some [⟨"a"⟩], none⟩ : ToolModule Nat) = false ∧
    validate_tool_module (⟨some [⟨"a"⟩], some [("b", 1)]⟩ : ToolModule Nat)
      = false ∧
    load_tools_from_directory
        ([] ++ (⟨some [⟨"a"⟩], some [("b", 1)]⟩ : ToolModule Nat) :: []) =
      load_tools_from_directory ([] ++ [])) :=
  claim_C1 (⟨some [⟨"a"⟩], some [("b", 1)]⟩ : ToolModule Nat) [⟨"a"⟩]
    [("b", 1)] rfl rfl
    (fun h => by simpa using (h "a").1 (by simp)) [] []

/-- Counterexample to claim C9: both modules validate, yet the registry
build keeps both schema entries and silently binds the duplicated name to
the callable of the later module — the outcome the claim rules out. -/
theorem claim_C9_counterexample :
    validate_tool_module dupModule1 = true ∧
    validate_tool_module dupModule2 = true ∧
    load_tools_from_directory [dupModule1, dupModule2] =
      ([⟨"dup"⟩, ⟨"dup"⟩], [("dup", 2)]) ∧
    dictGet (load_tools_from_directory [dupModule1, dupModule2]).2 "dup" =
      some 2 := by
  refine ⟨rfl, rfl, rfl, rfl⟩

/-- Claim C9 (amended): duplicate tool names across two otherwise-valid
modules are not rejected and the build does not abort; the flat schema list
keeps the schema entries of both modules (concatenation), and the function
map deterministically binds every key of the later module — the duplicated
name included — to the later callable (last-wins dict update). -/
theorem claim_C9_amended {F : Type} (m1 m2 : ToolModule F)
    (ss1 ss2 : List Schema) (tm1 tm2 : Dict F) (n : String) (v : F)
    (hs1 : m1.TOOL_SCHEMAS = some ss1) (ht1 : m1.TOOL_MAP = some tm1)
    (hs2 : m2.TOOL_SCHEMAS = some ss2) (ht2 : m2.TOOL_MAP = some tm2)
    (hv1 : validate_tool_module m1 = true)
    (hv2 : validate_tool_module m2 = true)
    (hnd : (List.map Prod.fst tm2).Nodup)
    (hget : dictGet tm2 n = some v) :
    (load_tools_from_directory [m1, m2]).1 = ss1 ++ ss2 ∧
    dictGet (load_tools_from_directory [m1, m2]).2 n = some v := by
  unfold load_tools_from_directory
  simp only [List.foldl_cons, List.foldl_nil, hv1, hv2, if_true, hs1, ht1,
    hs2, ht2, Option.getD_some]
  refine ⟨by simp, ?_⟩
  exact dictGet_dictUpdate_of_mem _ tm2 n v hnd hget

/-- Witness for the amended C9 at the two concrete duplicate modules. -/
theorem claim_C9_amended_witness :
    (load_tools_from_directory [dupModule1, dupModule2]).1 =
      [⟨"dup"⟩] ++ [⟨"dup"⟩] ∧
    dictGet (load_tools_from_directory [dupModule1, dupModule2]).2 "dup" =
      some 2 :=
  claim_C9_amended dupModule1 dupModule2 [⟨"dup"⟩] [⟨"dup"⟩]
    [("dup", 1)] [("dup", 2)] "dup" 2 rfl rfl rfl rfl rfl rfl
    (by simp) rfl

/-! ## Helper lemmas: loop trace -/

theorem runLoop_trace_head (env : Env) (fuel i : Nat)
    (messages : List Message) :
    (runLoop env (fuel + 1) i messages).2.1.head? =
      some ⟨messages, (env.regAt i).1⟩ := by
  simp only [runLoop]
  split
  · rfl
  · split
    · rfl
    · split <;> rfl

/-! ## Claims about the orchestrator -/

/-- Claim C10: on empty user text the orchestrator returns the error dict
at once — no provider call is made (empty call trace), no tool is invoked
(empty invocation trace), and the result does not depend on the prior
history at all. -/
theorem claim_C10 (env : Env) (fuel : Nat) (hist : List Message) :
    process_command_with_llm_and_tools env fuel "" hist =
      (some emptyCommandDict, [], []) ∧
    dictGet emptyCommandDict "status" = some (.str "error") :=
  ⟨rfl, rfl⟩

/-- Claim C6 (amended): a provider exception at any iteration ends the run
at once — the result is fixed regardless of remaining fuel (no retry), the
trace records no further provider call — and the caller-facing dict is
status error with the error text under the key `response` (not `message`). -/
theorem claim_C6_amended (env : Env) (fuel i : Nat) (messages : List Message)
    (e : String) (hscript : env.script i = .raise e) :
    runLoop env (fuel + 1) i messages =
      (some (sessionErrorDict e), [⟨messages, (env.regAt i).1⟩], []) ∧
    dictGet (sessionErrorDict e) "status" = some (.str "error") ∧
    dictGet (sessionErrorDict e) "response" =
      some (.str ("처리 중 오류가 발생했습니다: " ++ e)) ∧
    dictGet (sessionErrorDict e) "message" = none := by
  refine ⟨?_, rfl, rfl, rfl⟩
  simp only [runLoop, hscript]

/-- Witness for the amended C6 at the provider-raising environment. -/
theorem claim_C6_amended_witness :
    (runLoop sessionErrorEnv 1 0 [] =
      (some (sessionErrorDict "boom"), [⟨[], []⟩], []) ∧
    dictGet (sessionErrorDict "boom") "status" = some (.str "error") ∧
    dictGet (sessionErrorDict "boom") "response" =
      some (.str ("처리 중 오류가 발생했습니다: " ++ "boom")) ∧
    dictGet (sessionErrorDict "boom") "message" = none) :=
  claim_C6_amended sessionErrorEnv 0 0 [] "boom" rfl

/-- Counterexample to claim C6: when the provider raises, the caller-facing
dict carries the error text under the key `response`; it has no `message`
key, so it is not the `{status, message}` shape the claim states. -/
theorem claim_C6_counterexample :
    (process_command_with_llm_and_tools sessionErrorEnv 1 "hi" []).1 =
      some (sessionErrorDict "boom") ∧
    ((process_command_with_llm_and_tools sessionErrorEnv 1 "hi" []).1.map
      (fun d => dictGet d "message")) = some none ∧
    sessionErrorDict "boom" =
      [("status", .str "error"),
       ("response", .str "처리 중 오류가 발생했습니다: boom")] :=
  ⟨rfl, rfl, rfl⟩

/-- Counterexample to claim C8: a prior-history message with role `tool`
(neither user nor assistant) is replayed into the seeded list, so the seed
is not `[system prompt] ++ (user/assistant turns only) ++ [user message]`. -/
theorem claim_C8_counterexample :
    seedMessages "hi" [toolHistoryMessage] ≠
      [systemMessage, userMessage "hi"] ∧
    toolHistoryMessage ∈ seedMessages "hi" [toolHistoryMessage] ∧
    toolHistoryMessage.role = "tool" := by
  refine ⟨by decide, by decide, rfl⟩

/-- Claim C8 (amended): the message list sent on the first model call is
`[system prompt] ++ (prior turns with system messages dropped — every
non-system role, tool included, is replayed verbatim) ++ [new user
message]`. -/
theorem claim_C8_amended (env : Env) (fuel : Nat) (cmd : String)
    (hist : List Message) (hcmd : (cmd == "") = false) :
    (process_command_with_llm_and_tools env (fuel + 1) cmd hist).2.1.head? =
      some ⟨seedMessages cmd hist, (env.regAt 0).1⟩ ∧
    seedMessages cmd hist =
      systemMessage ::
        (List.filter (fun m => m.role != "system") hist ++
          [userMessage cmd]) := by
  refine ⟨?_, rfl⟩
  unfold process_command_with_llm_and_tools
  rw [hcmd]
  simp only [Bool.false_eq_true, if_false]
  exact runLoop_trace_head env fuel 0 _

/-- Witness for the amended C8: the seed of a run over a history holding a
tool-role message keeps that message. -/
theorem claim_C8_amended_witness :
    ((process_command_with_llm_and_tools sessionErrorEnv (0 + 1) "hi"
        [toolHistoryMessage]).2.1.head? =
      some ⟨seedMessages "hi" [toolHistoryMessage],
        (sessionErrorEnv.regAt 0).1⟩ ∧
    seedMessages "hi" [toolHistoryMessage] =
      systemMessage ::
        (List.filter (fun m => m.role != "system") [toolHistoryMessage] ++
          [userMessage "hi"])) :=
  claim_C8_amended sessionErrorEnv 0 "hi" [toolHistoryMessage] rfl

/-- Counterexample to claim C2: in a run whose first turn requests the
non-terminal tool, a reload between iterations changes the schema list
passed to the model on the second call — the second provider call does not
see the schemas captured when the run started. -/
theorem claim_C2_counterexample :
    ((process_command_with_llm_and_tools reloadEnv 2 "hi" []).2.1.map
        ProviderCall.tools) =
      [[⟨"echo_tool"⟩], [⟨"echo_tool"⟩, ⟨"speak_text"⟩]] ∧
    (reloadEnv.regAt 0).1 = [⟨"echo_tool"⟩] ∧
    ([⟨"echo_tool"⟩, ⟨"speak_text"⟩] : List Schema) ≠ [⟨"echo_tool"⟩] := by
  refine ⟨rfl, rfl, by decide⟩

/-- Claim C2 (amended): no snapshot is captured at run start — the
orchestrator re-reads the process-wide registry globals on every loop
iteration, so the schema list passed on the j-th provider call of a run is
the value of the globals at that iteration (`regAt (i + j)`), and a
`reload_tools` completing mid-run is visible to all subsequent iterations. -/
theorem claim_C2_amended (env : Env) (fuel i j : Nat)
    (messages : List Message) (c : ProviderCall)
    (hc : (runLoop env fuel i messages).2.1.get? j = some c) :
    c.tools = (env.regAt (i + j)).1 := by
  induction fuel generalizing i j messages with
  | zero => simp [runLoop] at hc
  | succ n ih =>
    simp only [runLoop] at hc
    split at hc
    · cases j with
      | zero =>
        simp only [List.get?_cons_zero, Option.some.injEq] at hc
        rw [← hc]
        rfl
      | succ k => simp at hc
    · split at hc
      · cases j with
        | zero =>
          simp only [List.get?_cons_zero, Option.some.injEq] at hc
          rw [← hc]
          rfl
        | succ k => simp at hc
      · split at hc
        · cases j with
          | zero =>
            simp only [List.get?_cons_zero, Option.some.injEq] at hc
            rw [← hc]
            rfl
          | succ k => simp at hc
        · cases j with
          | zero =>
            simp only [List.get?_cons_zero, Option.some.injEq] at hc
            rw [← hc]
            rfl
          | succ k => simp at hc
        · cases j with
          | zero =>
            simp only [List.get?_cons_zero, Option.some.injEq] at hc
            rw [← hc]
            rfl
          | succ k =>
            simp only [List.get?_cons_succ] at hc
            have harith : i + (k + 1) = (i + 1) + k := by omega
            rw [harith]
            exact ih (i + 1) k _ hc

/-- Witness for the amended C2: in the reload run, the trace entry at index
1 carries the post-reload schema list, the registry value at iteration 1. -/
theorem claim_C2_amended_witness :
    (0 : Nat) < 2 ∧
    ((runLoop reloadEnv 2 0 (seedMessages "hi" [])).2.1.get? 1).map
        ProviderCall.tools = some (reloadEnv.regAt (0 + 1)).1 := by
  refine ⟨by decide, ?_⟩
  have h1 : (runLoop reloadEnv 2 0 (seedMessages "hi" [])).2.1.get? 1 =
      some ⟨seedMessages "hi" [] ++
        [echoTurn, toolMessage "call1" "echo_tool" "ok-result"],
        (reloadEnv.regAt 1).1⟩ := rfl
  rw [h1]
  have h2 := claim_C2_amended reloadEnv 2 0 1 (seedMessages "hi" [])
    ⟨seedMessages "hi" [] ++
      [echoTurn, toolMessage "call1" "echo_tool" "ok-result"],
      (reloadEnv.regAt 1).1⟩ h1
  exact congrArg some h2

/-- Claim C3: a model turn whose tool call names the terminal tool with
text `v` and detailed text `d`, whose callable returns audio bytes without
raising, makes the orchestrator return the audio-response dict with
voice text `v`, detailed text `d` (or `v` when `d` is absent or empty,
absence giving the empty default) and the returned bytes as audio
content. -/
theorem claim_C3 (env : Env) (fuel i : Nat) (messages : List Message)
    (rm : Message) (id2 : String) (args : Args) (v d : String) (f : Func)
    (bs : List Nat)
    (hscript : env.script i = .ok rm)
    (hcalls : rm.tool_calls = [⟨id2, "speak_text", .ok args⟩])
    (hv : argsGet args "text" (.str "") = .str v)
    (hd : argsGet args "detailed_text" (.str "") = .str d)
    (hf : dictGet (env.regAt i).2 "speak_text" = some f)
    (hok : f args = .ok (.bytes bs)) :
    (runLoop env (fuel + 1) i messages).1 =
      some (audioResponseDict (.str v) (.str (if d = "" then v else d))
        (.bytes bs)) ∧
    (d = "" →
      (runLoop env (fuel + 1) i messages).1 =
        some (audioResponseDict (.str v) (.str v) (.bytes bs))) := by
  have hcf : call_function (env.regAt i).2 "speak_text" args =
      .ok (.bytes bs) := by
    unfold call_function; rw [hf]; exact hok
  have hmain : (runLoop env (fuel + 1) i messages).1 =
      some (audioResponseDict (.str v) (.str (if d = "" then v else d))
        (.bytes bs)) := by
    simp only [runLoop, hscript, hcalls, List.isEmpty_cons,
      Bool.false_eq_true, if_false, processCalls, beq_self_eq_true, if_true,
      hcf, hv, hd]
    by_cases hde : d = ""
    · subst hde; simp [pyTruthy]
    · simp [pyTruthy, hde]
  refine ⟨hmain, fun hde => ?_⟩
  rw [hmain, hde]
  simp

/-- Witness for C3 at the spec example arguments. -/
theorem claim_C3_witness :
    ((runLoop speakEnv (0 + 1) 0 []).1 =
      some (audioResponseDict (.str "안녕")
        (.str (if "안녕하세요, 도와드릴까요?" = "" then "안녕"
          else "안녕하세요, 도와드릴까요?"))
        (.bytes [1, 2, 3])) ∧
    ("안녕하세요, 도와드릴까요?" = "" →
      (runLoop speakEnv (0 + 1) 0 []).1 =
        some (audioResponseDict (.str "안녕") (.str "안녕")
          (.bytes [1, 2, 3])))) :=
  claim_C3 speakEnv 0 0 [] speakTurn "call2" speakArgs "안녕"
    "안녕하세요, 도와드릴까요?" speakOkFunc [1, 2, 3] rfl rfl rfl rfl rfl rfl

/-- Claim C4: when the terminal callable raises, the orchestrator does not
fail the request; it returns the text-fallback dict, whose status is
success, with text content the detailed text when non-empty and the voice
text otherwise. -/
theorem claim_C4 (env : Env) (fuel i : Nat) (messages : List Message)
    (rm : Message) (id2 : String) (args : Args) (v d : String) (f : Func)
    (e : String)
    (hscript : env.script i = .ok rm)
    (hcalls : rm.tool_calls = [⟨id2, "speak_text", .ok args⟩])
    (hv : argsGet args "text" (.str "") = .str v)
    (hd : argsGet args "detailed_text" (.str "") = .str d)
    (hf : dictGet (env.regAt i).2 "speak_text" = some f)
    (herr : f args = .error e) :
    (runLoop env (fuel + 1) i messages).1 =
      some (textFallbackDict (.str (if d = "" then v else d))) ∧
    dictGet (textFallbackDict (.str (if d = "" then v else d))) "status" =
      some (.str "success") ∧
    dictGet (textFallbackDict (.str (if d = "" then v else d)))
      "response_type" = some (.str "text_fallback") := by
  have hcf : call_function (env.regAt i).2 "speak_text" args = .error e := by
    unfold call_function; rw [hf]; exact herr
  refine ⟨?_, rfl, rfl⟩
  simp only [runLoop, hscript, hcalls, List.isEmpty_cons,
    Bool.false_eq_true, if_false, processCalls, beq_self_eq_true, if_true,
    hcf, hv, hd]
  by_cases hde : d = ""
  · subst hde; simp [pyTruthy]
  · simp [pyTruthy, hde]

/-- Witness for C4: the raising synthesiser yields the text fallback. -/
theorem claim_C4_witness :
    ((runLoop speakFailEnv (0 + 1) 0 []).1 =
      some (textFallbackDict
        (.str (if "안녕하세요, 도와드릴까요?" = "" then "안녕"
          else "안녕하세요, 도와드릴까요?"))) ∧
    dictGet (textFallbackDict
        (.str (if "안녕하세요, 도와드릴까요?" = "" then "안녕"
          else "안녕하세요, 도와드릴까요?"))) "status" =
      some (.str "success") ∧
    dictGet (textFallbackDict
        (.str (if "안녕하세요, 도와드릴까요?" = "" then "안녕"
          else "안녕하세요, 도와드릴까요?"))) "response_type" =
      some (.str "text_fallback")) :=
  claim_C4 speakFailEnv 0 0 [] speakTurn "call2" speakArgs "안녕"
    "안녕하세요, 도와드릴까요?" speakFailFunc "TTS backend unavailable"
    rfl rfl rfl rfl rfl rfl

/-- Claim C5: a non-terminal tool call whose invocation raises (an unknown
name included) does not abort the batch or the run: a `tool` role message
with the tool_call_id of the call and content carrying the error text is
appended, processing continues with the rest of the batch, and — for a
single-call batch — the loop proceeds to the next model call at iteration
`i + 1`. -/
theorem claim_C5 (env : Env) (fuel i : Nat) (messages : List Message)
    (rm : Message) (tc : ToolCall) (args : Args) (e : String)
    (rest : List ToolCall)
    (hscript : env.script i = .ok rm)
    (hcalls : rm.tool_calls = [tc])
    (hname : (tc.function_name == "speak_text") = false)
    (hargs : tc.arguments = .ok args)
    (herr : call_function (env.regAt i).2 tc.function_name args =
      .error e) :
    processCalls (env.regAt i).2 (tc :: rest) messages =
      ((processCalls (env.regAt i).2 rest (messages ++
          [toolMessage tc.id tc.function_name ("오류 발생: " ++ e)])).1,
        ⟨tc.function_name, args⟩ ::
          (processCalls (env.regAt i).2 rest (messages ++
            [toolMessage tc.id tc.function_name ("오류 발생: " ++ e)])).2) ∧
    runLoop env (fuel + 1) i messages =
      ((runLoop env fuel (i + 1) (messages ++
          [rm, toolMessage tc.id tc.function_name ("오류 발생: " ++ e)])).1,
        ⟨messages, (env.regAt i).1⟩ ::
          (runLoop env fuel (i + 1) (messages ++
            [rm, toolMessage tc.id tc.function_name
              ("오류 발생: " ++ e)])).2.1,
        ⟨tc.function_name, args⟩ ::
          (runLoop env fuel (i + 1) (messages ++
            [rm, toolMessage tc.id tc.function_name
              ("오류 발생: " ++ e)])).2.2) := by
  have hstep : ∀ (rest2 : List ToolCall) (msgs : List Message),
      processCalls (env.regAt i).2 (tc :: rest2) msgs =
        ((processCalls (env.regAt i).2 rest2 (msgs ++
            [toolMessage tc.id tc.function_name ("오류 발생: " ++ e)])).1,
          ⟨tc.function_name, args⟩ ::
            (processCalls (env.regAt i).2 rest2 (msgs ++
              [toolMessage tc.id tc.function_name
                ("오류 발생: " ++ e)])).2) := by
    intro rest2 msgs
    simp only [processCalls, hargs, hname, Bool.false_eq_true, if_false,
      herr]
  refine ⟨hstep rest messages, ?_⟩
  simp only [runLoop, hscript, hcalls, List.isEmpty_cons,
    Bool.false_eq_true, if_false]
  rw [hstep [] (messages ++ [rm])]
  simp only [processCalls]
  simp [List.append_assoc]

/-- Witness for C5: the failing `boom_tool` call is folded into history and
the loop reaches the provider again at iteration 1. -/
theorem claim_C5_witness :
    (processCalls (failEnv.regAt 0).2 (failCall :: []) [] =
      ((processCalls (failEnv.regAt 0).2 [] ([] ++
          [toolMessage failCall.id failCall.function_name
            ("오류 발생: " ++ "tool blew up")])).1,
        ⟨failCall.function_name, []⟩ ::
          (processCalls (failEnv.regAt 0).2 [] ([] ++
            [toolMessage failCall.id failCall.function_name
              ("오류 발생: " ++ "tool blew up")])).2) ∧
    runLoop failEnv (1 + 1) 0 [] =
      ((runLoop failEnv 1 (0 + 1) ([] ++
          [failTurn, toolMessage failCall.id failCall.function_name
            ("오류 발생: " ++ "tool blew up")])).1,
        ⟨[], (failEnv.regAt 0).1⟩ ::
          (runLoop failEnv 1 (0 + 1) ([] ++
            [failTurn, toolMessage failCall.id failCall.function_name
              ("오류 발생: " ++ "tool blew up")])).2.1,
        ⟨failCall.function_name, []⟩ ::
          (runLoop failEnv 1 (0 + 1) ([] ++
            [failTurn, toolMessage failCall.id failCall.function_name
              ("오류 발생: " ++ "tool blew up")])).2.2)) :=
  claim_C5 failEnv 1 0 [] failTurn failCall [] "tool blew up" []
    rfl rfl rfl rfl rfl

/-- Claim C7: tool calls of a batch are processed in issue order; once a
call naming the terminal tool is reached the orchestrator returns without
invoking any later call of the batch and without appending any tool
message for it — the batch result, the messages and the recorded
invocations are those of the batch truncated after the terminal call — and
processing that terminal call yields a terminal outcome. -/
theorem claim_C7 (fns : Dict Func) (pre post : List ToolCall)
    (tc : ToolCall) (msgs : List Message) (args : Args)
    (hterm : tc.function_name = "speak_text")
    (hargs : tc.arguments = .ok args) :
    processCalls fns (pre ++ tc :: post) msgs =
      processCalls fns (pre ++ [tc]) msgs ∧
    ∃ r, (processCalls fns (tc :: post) msgs).1 = .terminal r := by
  constructor
  · induction pre generalizing msgs with
    | nil =>
      simp only [List.nil_append, processCalls, hargs, hterm,
        beq_self_eq_true, if_true]
    | cons p pre ih =>
      simp only [List.cons_append, processCalls]
      cases hp : p.arguments with
      | error e2 => rfl
      | ok a =>
        by_cases hpn : (p.function_name == "speak_text") = true
        · simp only [hpn, if_true]
        · simp only [hpn, Bool.false_eq_true, if_false, List.append_eq]
          simp only [ih]
  · simp only [processCalls, hargs, hterm, beq_self_eq_true, if_true]
    cases hres : call_function fns "speak_text" args with
    | ok r => exact ⟨_, rfl⟩
    | error e2 => exact ⟨_, rfl⟩

/-- Witness for C7: with a successful echo call before the terminal call
and a failing call after it, the batch equals its truncation at the
terminal call and ends in a terminal outcome. -/
theorem claim_C7_witness :
    (processCalls [("speak_text", speakOkFunc), ("echo_tool", okFunc)]
        ([echoCall] ++ speakCall :: [failCall]) [] =
      processCalls [("speak_text", speakOkFunc), ("echo_tool", okFunc)]
        ([echoCall] ++ [speakCall]) [] ∧
    ∃ r, (processCalls [("speak_text", speakOkFunc), ("echo_tool", okFunc)]
        (speakCall :: [failCall]) []).1 = .terminal r) :=
  claim_C7 [("speak_text", speakOkFunc), ("echo_tool", okFunc)]
    [echoCall] [failCall] speakCall [] speakArgs rfl rfl

end A2A
